import Mathlib

/-!
# go-graphql-product-svc

A shallow embedding of the product catalogue service: the Mongo-backed
repository (`internal/repository`), the product service (`internal/service`),
the GraphQL request handler and the JWT middleware (`internal/handler`).

Go code is embedded as pure functions with explicit state passing:

* the `products` collection is a `List Doc`, threaded through every call;
* a Go `error` is a `String` (its message), `nil` is `none`;
* a call that can panic returns an `Outcome`;
* what the MongoDB driver, the JWT library and the GraphQL library decide on
  their own (faults, fresh identifiers, token decoding, document parsing) is an
  explicit input, collected in `Driver`, `JWTLib` and `GraphQLLib`.
-/

namespace ProductSvc

/-! ## Go values -/

/-- Instant of a `time.Time`; `0` stands for the zero value `time.Time{}`. -/
abbrev Time := Nat

/-- Bit pattern of a `float64`. Prices are stored and copied, never computed on. -/
abbrev Float64 := Nat

/-- Result of a Go call that either returns or panics. -/
inductive Outcome (α : Type) where
  | done (a : α)
  | panic (msg : String)
deriving DecidableEq

/-- Text that the verb `%v` prints for an `error` value (`<nil>` for a nil error). -/
def fmtV : Option String → String
  | none => "<nil>"
  | some e => e

/-- Panic message of a nil pointer dereference. -/
def nilDeref : String := "runtime error: invalid memory address or nil pointer dereference"

/-! ## `primitive.ObjectID` -/

/-- Twelve-byte document identifier `primitive.ObjectID`. -/
structure ObjectID where
  bytes : List (Fin 256)
  size : bytes.length = 12

instance : DecidableEq ObjectID := fun a b =>
  if h : a.bytes = b.bytes then
    isTrue (by cases a; cases b; simp_all)
  else
    isFalse (fun e => h (by rw [e]))

/-- The zero identifier `primitive.NilObjectID`. -/
def NilObjectID : ObjectID := ⟨List.replicate 12 0, rfl⟩

/-- The digits `hextable` of `encoding/hex`. -/
def hextable : String := "0123456789abcdef"

/-- Lower-case hex digit of a nibble, `hextable[n]`. -/
def hexDigit (n : Nat) : Char := hextable.data.getD n '0'

/-- Hex text of a byte string (`hex.Encode`): two digits per byte. -/
def hexEncode : List (Fin 256) → List Char
  | [] => []
  | b :: bs => hexDigit (b.val / 16) :: hexDigit (b.val % 16) :: hexEncode bs

/-- Hex text of an identifier, `ObjectID.Hex`. -/
def ObjectID.Hex (o : ObjectID) : String := String.mk (hexEncode o.bytes)

/-- Value of one hex digit (`fromHexChar` of `encoding/hex`), in either case. -/
def fromHexChar (c : Char) : Option Nat :=
  if '0' ≤ c ∧ c ≤ '9' then some (c.toNat - 48)
  else if 'a' ≤ c ∧ c ≤ 'f' then some (c.toNat - 97 + 10)
  else if 'A' ≤ c ∧ c ≤ 'F' then some (c.toNat - 65 + 10)
  else none

/-- Bytes of a hex text (`hex.Decode`); `none` on an odd length or a non-hex character. -/
def hexDecode : List Char → Option (List (Fin 256))
  | [] => some []
  | [_] => none
  | a :: b :: rest =>
    match fromHexChar a, fromHexChar b, hexDecode rest with
    | some hi, some lo, some tl => some (Fin.ofNat (hi * 16 + lo) :: tl)
    | _, _, _ => none

/-- Parser `primitive.ObjectIDFromHex`: the identifier and the error. On any error the
identifier is `NilObjectID`. A string of 24 bytes that decodes as hex has 24 characters,
so the length test is taken on characters. -/
def ObjectIDFromHex (s : String) : ObjectID × Option String :=
  if s.data.length ≠ 24 then
    (NilObjectID, some "the provided hex string is not a valid ObjectID")
  else
    match hexDecode s.data with
    | none => (NilObjectID, some "encoding/hex: invalid byte")
    | some bs =>
      if h : bs.length = 12 then (⟨bs, h⟩, none)
      else (NilObjectID, some "the provided hex string is not a valid ObjectID")

/-! ## `internal/model` -/

/-- Record `model.Product`; `ID` is the `MOID` string. -/
structure Product where
  ID : String
  Name : String
  Price : Float64
  Stock : Int
  CreatedAt : Time
  UpdatedAt : Time
deriving DecidableEq

/-- Marshaller `MOID.MarshalBSONValue`: the identifier written for a non-empty `MOID`,
or the parse error. -/
def MOID.MarshalBSONValue (id : String) : Except String ObjectID :=
  match ObjectIDFromHex id with
  | (_, some err) => .error err
  | (p, none) => .ok p

/-! ## The MongoDB collection and driver -/

/-- A stored document of the `products` collection, by its bson field names. -/
structure Doc where
  _id : ObjectID
  name : String
  price : Float64
  stock : Int
  created_at : Time
  updated_at : Time
deriving DecidableEq

/-- What the driver and the server decide independently of the collection contents:
the error of each call, if it fails, and the fresh identifier the driver generates
for a document inserted without `_id`. -/
structure Driver where
  findErr : Option String
  allErr : Option String
  insertErr : Option String
  newObjectID : List Doc → ObjectID
  findOneErr : Option String
  startSessionErr : Option String
  updateErr : Option String
  commitErr : Option String
  deleteErr : Option String

/-- A driver on which no call fails. -/
def Driver.healthy (fresh : List Doc → ObjectID) : Driver :=
  ⟨none, none, none, fresh, none, none, none, none, none⟩

/-- Decoding of a stored document into a `model.Product`. -/
def Doc.decode (d : Doc) : Product :=
  ⟨d._id.Hex, d.name, d.price, d.stock, d.created_at, d.updated_at⟩

/-- Cursor over the result of a find. -/
structure Cursor where
  batch : List Doc

/-- Call `Collection.Find` with the empty filter: the cursor (nil on error) and the error. -/
def Collection.Find (drv : Driver) (coll : List Doc) : Option Cursor × Option String :=
  match drv.findErr with
  | some e => (none, some e)
  | none => (some ⟨coll⟩, none)

/-- Call `Cursor.All` into the slice `results`. A nil receiver is dereferenced; a failed
decode leaves `results` as it was. -/
def Cursor.All (drv : Driver) (cur : Option Cursor) (results : List Product) :
    Outcome (List Product × Option String) :=
  match cur with
  | none => .panic nilDeref
  | some c =>
    match drv.allErr with
    | some e => .done (results, some e)
    | none => .done (c.batch.map Doc.decode, none)

/-- Call `Collection.InsertOne`. The `_id` field is omitted for an empty `MOID`
(`omitempty`), and the driver then generates one; otherwise it is marshalled by
`MOID.MarshalBSONValue`. Returns the inserted identifier and the new collection. -/
def Collection.InsertOne (drv : Driver) (coll : List Doc) (p : Product) :
    Except String (ObjectID × List Doc) :=
  let marshalled : Except String ObjectID :=
    if p.ID = "" then .ok (drv.newObjectID coll) else MOID.MarshalBSONValue p.ID
  match marshalled with
  | .error e => .error e
  | .ok oid =>
    match drv.insertErr with
    | some e => .error e
    | none =>
      if coll.any (fun d => d._id = oid) then .error "E11000 duplicate key error"
      else .ok (oid, coll ++ [⟨oid, p.Name, p.Price, p.Stock, p.CreatedAt, p.UpdatedAt⟩])

/-- Call `Collection.FindOne(_id = oid).Decode`. -/
def Collection.FindOne (drv : Driver) (coll : List Doc) (oid : ObjectID) :
    Except String Product :=
  match drv.findOneErr with
  | some e => .error e
  | none =>
    match coll.find? (fun d => d._id = oid) with
    | none => .error "mongo: no documents in result"
    | some d => .ok d.decode

/-- Counters of `mongo.UpdateResult`. -/
structure UpdateResult where
  MatchedCount : Nat
  ModifiedCount : Nat
deriving DecidableEq

/-- The bson update document built by `Update`: `$set` of name, price and stock. -/
structure SetDoc where
  name : String
  price : Float64
  stock : Int

/-- Effect of `$set` on one document. -/
def SetDoc.apply (u : SetDoc) (d : Doc) : Doc :=
  { d with name := u.name, price := u.price, stock := u.stock }

/-- Effect of `$set` on the first document with the given `_id`. -/
def applyFirst (oid : ObjectID) (u : SetDoc) : List Doc → List Doc
  | [] => []
  | d :: ds => if d._id = oid then u.apply d :: ds else d :: applyFirst oid u ds

/-- Call `Collection.UpdateOne(_id = oid, $set ...)`: a matched document counts as modified
only when the `$set` changes it. -/
def Collection.UpdateOne (drv : Driver) (coll : List Doc) (oid : ObjectID) (u : SetDoc) :
    Except String (UpdateResult × List Doc) :=
  match drv.updateErr with
  | some e => .error e
  | none =>
    match coll.find? (fun d => d._id = oid) with
    | none => .ok (⟨0, 0⟩, coll)
    | some d =>
      if u.apply d = d then .ok (⟨1, 0⟩, coll)
      else .ok (⟨1, 1⟩, applyFirst oid u coll)

/-- Call `Collection.DeleteOne(_id = oid)`: removes the first matching document. -/
def Collection.DeleteOne (drv : Driver) (coll : List Doc) (oid : ObjectID) :
    Except String (List Doc) :=
  match drv.deleteErr with
  | some e => .error e
  | none => .ok (coll.eraseP (fun d => d._id = oid))

/-- State of a session transaction. -/
inductive TxState where
  | running
  | committed
  | aborted
deriving DecidableEq

/-- A session with one transaction: the collection when the transaction started, the
collection as the transaction sees it, and the transaction state. -/
structure Session where
  snapshot : List Doc
  working : List Doc
  state : TxState

/-- Call `Session.AbortTransaction`. -/
def Session.AbortTransaction (s : Session) : Session :=
  { s with working := s.snapshot, state := .aborted }

/-- Call `Session.CommitTransaction`: a failed commit applies nothing. -/
def Session.CommitTransaction (drv : Driver) (s : Session) : Option String × Session :=
  match drv.commitErr with
  | some e => (some e, { s with working := s.snapshot, state := .aborted })
  | none => (none, { s with state := .committed })

/-- The collection left behind when the session ends: the working copy if the
transaction committed, the snapshot otherwise. -/
def Session.EndSession (s : Session) : List Doc :=
  match s.state with
  | .committed => s.working
  | _ => s.snapshot

/-- Call `Session.WithTransaction` on a function that returns its result, the `product`
variable it captured, and the session. A transaction still running after a failed
function is aborted; one still running after a successful function is committed. The
result is paired with the collection left when the session ends. An error is taken as
final (no transient-error retry). -/
def Session.WithTransaction (drv : Driver) (coll : List Doc)
    (fn : Session → Except String UpdateResult × Product × Session) :
    Except String UpdateResult × Product × List Doc :=
  match fn ⟨coll, coll, .running⟩ with
  | (.error e, product, tx) =>
    let tx := if tx.state = .running then tx.AbortTransaction else tx
    (.error e, product, tx.EndSession)
  | (.ok res, product, tx) =>
    if tx.state ≠ .running then (.ok res, product, tx.EndSession)
    else
      match tx.CommitTransaction drv with
      | (some e, tx) => (.error e, product, tx.EndSession)
      | (none, tx) => (.ok res, product, tx.EndSession)

/-! ## `internal/repository` -/

/-- Interface `IProductRepository` over a store state `σ`. -/
structure IProductRepository (σ : Type) where
  Getall : σ → Outcome (List Product) × σ
  Create : Product → σ → Except String Product × σ
  FindByID : String → σ → Except String Product × σ
  Update : String → Product → σ → Except String Product × σ
  Delete : String → σ → Option String × σ

/-- Method `ProductRepository.Getall`. -/
def ProductRepository.Getall (drv : Driver) (coll : List Doc) :
    Outcome (List Product) × List Doc :=
  let products : List Product := []
  let (cur, _err) := Collection.Find drv coll
  -- a non-nil error is logged and execution continues
  match Cursor.All drv cur products with
  | .panic m => (.panic m, coll)
  | .done (products, _err) => (.done products, coll)

/-- Method `ProductRepository.Create`. -/
def ProductRepository.Create (drv : Driver) (product : Product) (coll : List Doc) :
    Except String Product × List Doc :=
  match Collection.InsertOne drv coll product with
  | .error err => (.error ("could not insert product: " ++ fmtV (some err)), coll)
  | .ok (insertedID, coll) =>
    -- the inserted identifier is always a `primitive.ObjectID`
    (.ok { product with ID := insertedID.Hex }, coll)

/-- Method `ProductRepository.FindByID`. -/
def ProductRepository.FindByID (drv : Driver) (id : String) (coll : List Doc) :
    Except String Product × List Doc :=
  let oid := (ObjectIDFromHex id).1
  match Collection.FindOne drv coll oid with
  | .error err => (.error ("could not find product: " ++ fmtV (some err)), coll)
  | .ok product => (.ok product, coll)

/-- The closure `callback` of `ProductRepository.Update`, run inside the transaction. -/
def ProductRepository.Update.callback (drv : Driver) (id : String) (product : Product)
    (tx : Session) : Except String UpdateResult × Product × Session :=
  let oid := (ObjectIDFromHex id).1
  let update : SetDoc := ⟨product.Name, product.Price, product.Stock⟩
  match Collection.UpdateOne drv tx.working oid update with
  | .error errUpdate =>
    (.error ("could not update product: " ++ fmtV (some errUpdate)), product,
      tx.AbortTransaction)
  | .ok (res, working) =>
    let tx := { tx with working := working }
    if res.ModifiedCount = 0 then
      (.error ("could not update product: " ++ fmtV none), product, tx.AbortTransaction)
    else
      let product := if res.MatchedCount > 0 then { product with ID := oid.Hex } else product
      if res.ModifiedCount = 1 then
        match tx.CommitTransaction drv with
        | (some errUpdate, tx) => (.error errUpdate, product, tx)
        | (none, tx) => (.ok res, product, tx)
      else
        (.ok res, product, tx)

/-- Method `ProductRepository.Update`. -/
def ProductRepository.Update (drv : Driver) (id : String) (product : Product)
    (coll : List Doc) : Except String Product × List Doc :=
  match drv.startSessionErr with
  | some err => (.error err, coll)
  | none =>
    match Session.WithTransaction drv coll (ProductRepository.Update.callback drv id product) with
    | (.error err, _, coll) => (.error ("could not update product: " ++ fmtV (some err)), coll)
    | (.ok _, product, coll) => (.ok product, coll)

/-- Method `ProductRepository.Delete`. -/
def ProductRepository.Delete (drv : Driver) (id : String) (coll : List Doc) :
    Option String × List Doc :=
  let oid := (ObjectIDFromHex id).1
  match Collection.DeleteOne drv coll oid with
  | .error err => (some ("could not delete product: " ++ fmtV (some err)), coll)
  | .ok coll => (none, coll)

/-- Constructor `NewProductRepository`, as an `IProductRepository` over the collection. -/
def NewProductRepository (drv : Driver) : IProductRepository (List Doc) where
  Getall := ProductRepository.Getall drv
  Create := ProductRepository.Create drv
  FindByID := ProductRepository.FindByID drv
  Update := ProductRepository.Update drv
  Delete := ProductRepository.Delete drv

/-! ## `internal/service` -/

/-- Interface `IProductService` over a store state `σ`. -/
structure IProductService (σ : Type) where
  GetAllProduct : σ → Outcome (List Product) × σ
  CreateProduct : Product → σ → Except String Product × σ
  GetProductByID : String → σ → Except String Product × σ
  UpdateProduct : String → Product → σ → Except String Product × σ
  DeleteProduct : String → σ → Option String × σ

/-- Struct `ProductService`. -/
structure ProductService (σ : Type) where
  Repo : IProductRepository σ

/-- Method `ProductService.GetAllProduct`. -/
def ProductService.GetAllProduct {σ : Type} (s : ProductService σ) (st : σ) :
    Outcome (List Product) × σ :=
  s.Repo.Getall st

/-- Method `ProductService.CreateProduct`; `TimeNow` is the clock `util.TimeNow`. -/
def ProductService.CreateProduct {σ : Type} (s : ProductService σ) (TimeNow : Unit → Time)
    (product : Product) (st : σ) : Except String Product × σ :=
  let timeNow := TimeNow ()
  let product := { product with CreatedAt := timeNow }
  let product := { product with UpdatedAt := timeNow }
  s.Repo.Create product st

/-- Method `ProductService.GetProductByID`. -/
def ProductService.GetProductByID {σ : Type} (s : ProductService σ) (id : String) (st : σ) :
    Except String Product × σ :=
  s.Repo.FindByID id st

/-- Method `ProductService.UpdateProduct`; `TimeNow` is the clock `util.TimeNow`. -/
def ProductService.UpdateProduct {σ : Type} (s : ProductService σ) (TimeNow : Unit → Time)
    (id : String) (product : Product) (st : σ) : Except String Product × σ :=
  let product := { product with UpdatedAt := TimeNow () }
  s.Repo.Update id product st

/-- Method `ProductService.DeleteProduct`. -/
def ProductService.DeleteProduct {σ : Type} (s : ProductService σ) (id : String) (st : σ) :
    Option String × σ :=
  s.Repo.Delete id st

/-- Constructor `NewProductService`, as an `IProductService`. -/
def NewProductService {σ : Type} (TimeNow : Unit → Time) (repo : IProductRepository σ) :
    IProductService σ where
  GetAllProduct := ProductService.GetAllProduct ⟨repo⟩
  CreateProduct := ProductService.CreateProduct ⟨repo⟩ TimeNow
  GetProductByID := ProductService.GetProductByID ⟨repo⟩
  UpdateProduct := ProductService.UpdateProduct ⟨repo⟩ TimeNow
  DeleteProduct := ProductService.DeleteProduct ⟨repo⟩

/-! ## Values decoded from JSON, claims and the request context -/

/-- A value decoded by `encoding/json` into an `interface{}`. Arrays and objects are
never inspected by the service and are kept as `composite`; `null` is Go's nil. -/
inductive JVal where
  | null
  | bool (b : Bool)
  | num (x : Float64)
  | str (s : String)
  | composite
deriving DecidableEq

/-- A `map[string]interface{}`, as an association list read by first match. -/
abbrev GoMap := List (String × JVal)

/-- Index expression `m[k]` on a map; nil for a missing key. -/
def GoMap.get (m : GoMap) (k : String) : JVal := (m.lookup k).getD .null

/-- Type `jwt.MapClaims`. -/
abbrev MapClaims := GoMap

/-- A value stored in a `context.Context`: a JSON-decoded value (nil included) or a
claims map. -/
inductive CtxVal where
  | json (v : JVal)
  | mapClaims (c : MapClaims)
deriving DecidableEq

/-- A `context.Context`, by the values stored under string keys, latest first. -/
abbrev Context := List (String × CtxVal)

/-- The empty context `context.Background()`. -/
def Context.Background : Context := []

/-- Function `context.WithValue`. -/
def Context.WithValue (ctx : Context) (key : String) (val : CtxVal) : Context :=
  (key, val) :: ctx

/-- Method `Context.Value`; nil for a key that was never set. -/
def Context.Value (ctx : Context) (key : String) : CtxVal :=
  (ctx.lookup key).getD (.json .null)

/-- Type assertion `v.(jwt.MapClaims)` without the comma-ok form. -/
def CtxVal.assertMapClaims : CtxVal → Outcome MapClaims
  | .mapClaims c => .done c
  | .json .null => .panic "interface conversion: interface {} is nil, not jwt.MapClaims"
  | .json _ => .panic "interface conversion: interface {} is not jwt.MapClaims"

/-- Type assertion `v.(string)` without the comma-ok form. -/
def JVal.assertString : JVal → Outcome String
  | .str s => .done s
  | .null => .panic "interface conversion: interface {} is nil, not string"
  | _ => .panic "interface conversion: interface {} is not string"

/-! ## GraphQL values -/

/-- A coerced field argument. -/
inductive ArgVal where
  | str (s : String)
  | float (x : Float64)
  | int (i : Int)
  | bool (b : Bool)
deriving DecidableEq

/-- The argument map `p.Args`. -/
abbrev Args := List (String × ArgVal)

/-- Expression `p.Args[k].(string)`. -/
def Args.string (a : Args) (k : String) : Outcome String :=
  match a.lookup k with
  | some (.str s) => .done s
  | none => .panic "interface conversion: interface {} is nil, not string"
  | some _ => .panic "interface conversion: interface {} is not string"

/-- Expression `p.Args[k].(float64)`. -/
def Args.float64 (a : Args) (k : String) : Outcome Float64 :=
  match a.lookup k with
  | some (.float x) => .done x
  | none => .panic "interface conversion: interface {} is nil, not float64"
  | some _ => .panic "interface conversion: interface {} is not float64"

/-- Expression `p.Args[k].(int)`. -/
def Args.int (a : Args) (k : String) : Outcome Int :=
  match a.lookup k with
  | some (.int i) => .done i
  | none => .panic "interface conversion: interface {} is nil, not int"
  | some _ => .panic "interface conversion: interface {} is not int"

/-- Struct `graphql.ResolveParams`, by the fields the resolvers read. -/
structure ResolveParams where
  Args : Args
  Context : Context

/-- A value returned by a resolver as `interface{}`. -/
inductive GoVal where
  | nil
  | product (p : Product)
  | products (ps : List Product)
  | boolean (b : Bool)
deriving DecidableEq

/-- What a call of a `Resolve` function does: return a value and an error, or panic. -/
inductive Resolved where
  | ret (val : GoVal) (err : Option String)
  | panicked (msg : String)
deriving DecidableEq

/-- Type of a `Resolve` function over a store state `σ`. -/
abbrev Resolver (σ : Type) := ResolveParams → σ → Resolved × σ

/-! ## `internal/handler`: the resolvers -/

/-- The interface `service.IClaimsValidator`, by the one method the handler calls. Its
declaration and implementation are not part of the sources at hand, so the predicate
is a parameter. -/
structure IClaimsValidator where
  IsAdmin : MapClaims → Bool

/-- Struct `ProductHandler`. -/
structure ProductHandler (σ : Type) where
  Service : IProductService σ
  cv : IClaimsValidator

/-- Resolver of `getProduct`. -/
def ProductHandler.getProduct {σ : Type} (h : ProductHandler σ) : Resolver σ := fun p st =>
  match p.Args.string "id" with
  | .panic m => (.panicked m, st)
  | .done id =>
    match h.Service.GetProductByID id st with
    | (.ok product, st) => (.ret (.product product) none, st)
    | (.error err, st) => (.ret .nil (some err), st)

/-- Resolver of `products`. -/
def ProductHandler.products {σ : Type} (h : ProductHandler σ) : Resolver σ := fun _p st =>
  match h.Service.GetAllProduct st with
  | (.done ps, st) => (.ret (.products ps) none, st)
  | (.panic m, st) => (.panicked m, st)

/-- Resolver of `createProduct`. -/
def ProductHandler.createProduct {σ : Type} (h : ProductHandler σ) : Resolver σ := fun p st =>
  match p.Args.string "name" with
  | .panic m => (.panicked m, st)
  | .done name =>
    match p.Args.float64 "price" with
    | .panic m => (.panicked m, st)
    | .done price =>
      match p.Args.int "stock" with
      | .panic m => (.panicked m, st)
      | .done stock =>
        let product : Product := ⟨"", name, price, stock, 0, 0⟩
        match h.Service.CreateProduct product st with
        | (.ok product, st) => (.ret (.product product) none, st)
        | (.error err, st) => (.ret .nil (some err), st)

/-- Resolver of `updateProduct`; `rCtx` is the request context captured by the closure. -/
def ProductHandler.updateProduct {σ : Type} (h : ProductHandler σ) (rCtx : Context) :
    Resolver σ := fun p st =>
  let p := { p with Context := rCtx }
  match (rCtx.Value "claims").assertMapClaims with
  | .panic m => (.panicked m, st)
  | .done claims =>
    if !h.cv.IsAdmin claims then
      (.ret .nil (some "you cannot access this resource"), st)
    else
      match p.Args.string "id" with
      | .panic m => (.panicked m, st)
      | .done id =>
        match p.Args.string "name" with
        | .panic m => (.panicked m, st)
        | .done name =>
          match p.Args.float64 "price" with
          | .panic m => (.panicked m, st)
          | .done price =>
            match p.Args.int "stock" with
            | .panic m => (.panicked m, st)
            | .done stock =>
              let product : Product := ⟨"", name, price, stock, 0, 0⟩
              match h.Service.UpdateProduct id product st with
              | (.ok product, st) => (.ret (.product product) none, st)
              | (.error err, st) => (.ret .nil (some err), st)

/-- Resolver of `deleteProduct`; `rCtx` is the request context captured by the closure. -/
def ProductHandler.deleteProduct {σ : Type} (h : ProductHandler σ) (rCtx : Context) :
    Resolver σ := fun p st =>
  let p := { p with Context := rCtx }
  match (rCtx.Value "claims").assertMapClaims with
  | .panic m => (.panicked m, st)
  | .done claims =>
    if !h.cv.IsAdmin claims then
      (.ret .nil (some "you cannot access this resource"), st)
    else
      match p.Args.string "id" with
      | .panic m => (.panicked m, st)
      | .done id =>
        match h.Service.DeleteProduct id st with
        | (some err, st) => (.ret (.boolean false) (some err), st)
        | (none, st) => (.ret (.boolean true) none, st)

/-! ## The GraphQL library -/

/-- A root field selected by the request document: response key, field name and
coerced arguments. -/
structure Selection where
  key : String
  name : String
  args : Args

/-- Kind of the executed operation. -/
inductive OperationKind where
  | query
  | mutation
deriving DecidableEq

/-- The operation a request document asks for. -/
structure Operation where
  kind : OperationKind
  selections : List Selection

/-- Parsing and validation of a request document against the schema, done by the GraphQL
library: the operation, or the errors found (at least one). -/
structure GraphQLLib where
  parse : String → Except (String × List String) Operation

/-- Struct `graphql.Result`: the data by response key (absent when nothing was executed)
and the messages of the formatted errors. -/
structure Result where
  Data : Option (List (String × GoVal))
  Errors : List String
deriving DecidableEq

/-- Map `graphql.Fields`, by the `Resolve` function of each field. -/
abbrev Fields (σ : Type) := List (String × Resolver σ)

/-- Execution of the selected root fields in order. An error returned by a resolver, or
a panic of it (which the library recovers), is added to the errors and the field is
null; all fields of the schema are nullable. A selection that names no field of the
root type is skipped. -/
def executeFields {σ : Type} (fields : Fields σ) (ctx : Context) :
    List Selection → σ → (List (String × GoVal) × List String) × σ
  | [], st => (([], []), st)
  | sel :: rest, st =>
    match fields.lookup sel.name with
    | none => executeFields fields ctx rest st
    | some resolve =>
      match resolve ⟨sel.args, ctx⟩ st with
      | (.ret v none, st) =>
        let r := executeFields fields ctx rest st
        (((sel.key, v) :: r.1.1, r.1.2), r.2)
      | (.ret _ (some err), st) =>
        let r := executeFields fields ctx rest st
        (((sel.key, .nil) :: r.1.1, err :: r.1.2), r.2)
      | (.panicked m, st) =>
        let r := executeFields fields ctx rest st
        (((sel.key, .nil) :: r.1.1, m :: r.1.2), r.2)

/-- Function `graphql.Do` for `Params` with a schema and a request string only: the
resolvers receive `context.Background()`. -/
def graphqlDo {σ : Type} (lib : GraphQLLib) (query mutation : Fields σ)
    (RequestString : String) (st : σ) : Result × σ :=
  match lib.parse RequestString with
  | .error (e, es) => (⟨none, e :: es⟩, st)
  | .ok op =>
    let fields := match op.kind with
      | .query => query
      | .mutation => mutation
    let r := executeFields fields Context.Background op.selections st
    (⟨some r.1.1, r.1.2⟩, r.2)

/-! ## `net/http` -/

/-- A piece written to the response body. -/
inductive Payload where
  | text (s : String)
  | json (r : Result)
deriving DecidableEq

/-- An `http.ResponseWriter`: the header map, every status code passed to `WriteHeader`
(explicitly, or implicitly by the first `Write`), and the body written. -/
structure ResponseWriter where
  Header : List (String × String)
  status : List Nat
  body : List Payload
deriving DecidableEq

/-- A writer on which nothing was written yet. -/
def ResponseWriter.fresh : ResponseWriter := ⟨[], [], []⟩

/-- Call `w.Header().Set(k, v)`. -/
def ResponseWriter.SetHeader (w : ResponseWriter) (k v : String) : ResponseWriter :=
  { w with Header := (k, v) :: w.Header.filter (fun kv => kv.1 ≠ k) }

/-- Call `w.WriteHeader(code)`. -/
def ResponseWriter.WriteHeader (w : ResponseWriter) (code : Nat) : ResponseWriter :=
  { w with status := w.status ++ [code] }

/-- Call `w.Write`: sends status 200 first when no status was sent. -/
def ResponseWriter.Write (w : ResponseWriter) (p : Payload) : ResponseWriter :=
  let w := if w.status = [] then w.WriteHeader 200 else w
  { w with body := w.body ++ [p] }

/-- Function `http.Error`. -/
def httpError (w : ResponseWriter) (error : String) (code : Nat) : ResponseWriter :=
  let w := w.SetHeader "Content-Type" "text/plain; charset=utf-8"
  let w := w.SetHeader "X-Content-Type-Options" "nosniff"
  let w := w.WriteHeader code
  w.Write (.text (error ++ "\n"))

/-- Kind of a JSON value that is neither an object nor `null`, by the name the decoder
gives it in a type error. -/
inductive JSONKind where
  | array
  | string
  | number
  | bool
deriving DecidableEq

/-- Name of a kind in the text of `json.UnmarshalTypeError`. -/
def JSONKind.name : JSONKind → String
  | .array => "array"
  | .string => "string"
  | .number => "number"
  | .bool => "bool"

/-- A complete JSON value at the start of a body: the literal `null`, an object (by its
decoded members), or a value of another kind. -/
inductive JSONValue where
  | null
  | object (m : GoMap)
  | other (kind : JSONKind)
deriving DecidableEq

/-- The request body as `json.Decoder.Decode` reads it. Either the decoder finds no
complete JSON value at the start of the body (a syntax error or the end of the input,
with the decoder error), or it reads a first value and stops there; `trailing` tells
whether anything but white space follows that value in the body. -/
inductive Body where
  | invalid (err : String)
  | value (first : JSONValue) (trailing : Bool)
deriving DecidableEq

/-- The body that is exactly the literal `null`. -/
def Body.null : Body := .value .null false

/-- The body that is exactly one JSON object. -/
def Body.object (m : GoMap) : Body := .value (.object m) false

/-- Call `json.NewDecoder(r.Body).Decode(&params)` for `params` of type
`map[string]interface{}`. Only the first value of the body is read: `null` leaves the
nil map, an object fills the map, a value of another kind is a type error. What follows
the first value is not looked at. -/
def Body.Decode : Body → Except String GoMap
  | .invalid err => .error err
  | .value .null _ => .ok []
  | .value (.object m) _ => .ok m
  | .value (.other kind) _ =>
    .error ("json: cannot unmarshal " ++ kind.name ++
      " into Go value of type map[string]interface {}")

/-- An `http.Request`, by what the handlers read: the method, the `Authorization` header
(empty when absent), the body and the context. -/
structure Request where
  Method : String
  Authorization : String
  Body : Body
  Context : Context

/-- An `http.Handler` over a store state `σ`. -/
abbrev Handler (σ : Type) := ResponseWriter → Request → σ → Outcome ResponseWriter × σ

/-- Text that `%v` prints for the error list of a result. -/
def fmtErrors (es : List String) : String := "[" ++ " ".intercalate es ++ "]"

/-- The query fields that `ServeGraphQL` builds. -/
def ProductHandler.ServeGraphQL.fields {σ : Type} (h : ProductHandler σ) : Fields σ :=
  [("getProduct", h.getProduct), ("products", h.products)]

/-- The mutation fields that `ServeGraphQL` builds; `rCtx` is the request context. -/
def ProductHandler.ServeGraphQL.mutationFields {σ : Type} (h : ProductHandler σ)
    (rCtx : Context) : Fields σ :=
  [("createProduct", h.createProduct), ("updateProduct", h.updateProduct rCtx),
   ("deleteProduct", h.deleteProduct rCtx)]

/-- Handler `ProductHandler.ServeGraphQL`. The schema it builds is fixed, so
`graphql.NewSchema` does not fail. -/
def ProductHandler.ServeGraphQL {σ : Type} (h : ProductHandler σ) (lib : GraphQLLib) :
    Handler σ := fun w r st =>
  let rCtx := r.Context
  match r.Body.Decode with
  | .error err => (.done (httpError w err 400), st)
  | .ok params =>
    let fields := ProductHandler.ServeGraphQL.fields h
    let mutationFields := ProductHandler.ServeGraphQL.mutationFields h rCtx
    match (params.get "query").assertString with
    | .panic m => (.panic m, st)
    | .done query =>
      let result := graphqlDo lib fields mutationFields query st
      if result.1.Errors.length > 0 then
        (.done (httpError w
          ("Failed to execute GraphQL operation: " ++ fmtErrors result.1.Errors) 500), result.2)
      else
        let w := w.SetHeader "Content-Type" "application/json"
        (.done (w.Write (.json result.1)), result.2)

/-! ## `internal/handler`: the middleware -/

/-- Handler wrapper `corsMiddleware`. -/
def corsMiddleware {σ : Type} (next : Handler σ) : Handler σ := fun w r st =>
  let w := w.SetHeader "Access-Control-Allow-Origin" "*"
  let w := w.SetHeader "Access-Control-Allow-Methods" "GET, POST, PUT, DELETE, OPTIONS"
  let w := w.SetHeader "Access-Control-Allow-Headers" "Content-Type, Authorization"
  if r.Method = "OPTIONS" then (.done (w.WriteHeader 200), st)
  else next w r st

/-- Signing methods of the JWT library, by their Go types. -/
inductive SigningMethod where
  | HMAC
  | RSA
  | RSAPSS
  | ECDSA
  | Ed25519
  | none
deriving DecidableEq

/-- Claims of a token: the library parses into `jwt.MapClaims`. -/
inductive Claims where
  | mapClaims (c : MapClaims)
  | other
deriving DecidableEq

/-- Struct `jwt.Token`, by the fields the middleware reads. -/
structure Token where
  Method : SigningMethod
  Claims : Claims
  Valid : Bool
deriving DecidableEq

/-- What decoding a token string yields before verification: the signing method of its
header, its claims, whether the claims are valid now (expiry, not-before, issued-at), and
under which keys its signature verifies. -/
structure RawToken where
  Method : SigningMethod
  Claims : MapClaims
  claimsValid : Bool
  verifies : String → Bool

/-- Decoding of token strings by the JWT library; `none` for a malformed token. -/
structure JWTLib where
  ParseUnverified : String → Option RawToken

/-- Function `jwt.Parse`: decode, ask `keyFunc` for the key, validate the claims, verify
the signature. The token is marked valid only when everything passed. -/
def jwtParse (lib : JWTLib) (tokenString : String) (keyFunc : Token → Except String String) :
    Option Token × Option String :=
  match lib.ParseUnverified tokenString with
  | none => (none, some "token contains an invalid number of segments")
  | some raw =>
    let token : Token := ⟨raw.Method, .mapClaims raw.Claims, false⟩
    match keyFunc token with
    | .error e => (some token, some e)
    | .ok key =>
      if raw.claimsValid && raw.verifies key then (some { token with Valid := true }, none)
      else if raw.claimsValid then (some token, some "signature is invalid")
      else (some token, some "token is expired or not valid yet")

/-- Remainder of `s` after the leading `p`, if `s` starts with `p`. -/
def dropLeading : List Char → List Char → Option (List Char)
  | s, [] => some s
  | [], _ :: _ => none
  | c :: s, d :: p => if c = d then dropLeading s p else none

/-- Function `strings.TrimPrefix`. -/
def TrimPrefix (s p : String) : String :=
  match dropLeading s.data p.data with
  | some rest => String.mk rest
  | none => s

/-- The key function the middleware passes to `jwt.Parse`. -/
def getJWTMiddleWare.keyFunc (jwtKey : String) (token : Token) : Except String String :=
  if token.Method ≠ .HMAC then .error "unexpected signing method"
  else .ok jwtKey

/-- Handler wrapper `getJWTMiddleWare`; `SecretKey` is `cfg.AuthTokenConfig.SecretKey`. -/
def getJWTMiddleWare {σ : Type} (SecretKey : String) (lib : JWTLib) (next : Handler σ) :
    Handler σ := fun w r st =>
  let jwtKey := SecretKey
  let authHeader := r.Authorization
  if authHeader = "" then
    (.done (httpError w "Missing Authorization Header" 401), st)
  else
    let tokenString := TrimPrefix authHeader "Bearer "
    match jwtParse lib tokenString (getJWTMiddleWare.keyFunc jwtKey) with
    | (_, some _) => (.done (httpError w "Invalid or expired token" 401), st)
    | (none, none) => (.panic nilDeref, st)
    | (some token, none) =>
      if !token.Valid then
        (.done (httpError w "Invalid or expired token" 401), st)
      else
        match token.Claims with
        | .other => (.done (httpError w "Invalid token claims" 401), st)
        | .mapClaims claims =>
          let ctx := r.Context
          let ctx := ctx.WithValue "userEmail" (.json (claims.get "email"))
          let r := { r with Context := ctx }
          next w r st

/-- The handler that `SetupServer` registers for `/product-svc`. -/
def SetupServer (SecretKey : String) (jwt : JWTLib) (gql : GraphQLLib) (drv : Driver)
    (TimeNow : Unit → Time) (claimsValidator : IClaimsValidator) : Handler (List Doc) :=
  let productRepo := NewProductRepository drv
  let productService := NewProductService TimeNow productRepo
  let productHandler : ProductHandler (List Doc) := ⟨productService, claimsValidator⟩
  let jwtMiddleware := getJWTMiddleWare SecretKey jwt
  corsMiddleware (jwtMiddleware (productHandler.ServeGraphQL gql))

/-! ## Predicates used in the statements -/

/-- The underlying write of `Update` fails, or reports zero modified documents. -/
def writeModifiesNothing (drv : Driver) (coll : List Doc) (id : String) (product : Product) :
    Prop :=
  match Collection.UpdateOne drv coll (ObjectIDFromHex id).1
      ⟨product.Name, product.Price, product.Stock⟩ with
  | .error _ => True
  | .ok (res, _) => res.ModifiedCount = 0

/-- The `$set` of `Update` relates a document to itself or, if it carries the identifier,
to itself with name, price and stock replaced. -/
def setOnly (oid : ObjectID) (u : SetDoc) (d d' : Doc) : Prop :=
  d' = d ∨ (d._id = oid ∧ d' = { d with name := u.name, price := u.price, stock := u.stock })

/-- The Verified state of the gate: the `Authorization` header is present and what is left
of it after `Bearer ` decodes to a token that is signed with an HMAC method, has valid
claims, and whose signature verifies under the secret key. -/
def Verified (SecretKey : String) (lib : JWTLib) (r : Request) : Prop :=
  r.Authorization ≠ "" ∧
  ∃ raw, lib.ParseUnverified (TrimPrefix r.Authorization "Bearer ") = some raw ∧
    raw.Method = SigningMethod.HMAC ∧ raw.claimsValid = true ∧ raw.verifies SecretKey = true

/-- The request that the gate hands to the downstream handler for the claims `claims`. -/
def forwarded (r : Request) (claims : MapClaims) : Request :=
  { r with Context := r.Context.WithValue "userEmail" (.json (claims.get "email")) }

/-! ## Concrete inputs used in the examples -/

/-- An identifier other than the zero identifier. -/
def Demo.oid : ObjectID := ⟨[1, 2, 3, 4, 5, 6, 7, 8, 9, 10, 11, 12], rfl⟩

/-- A driver on which no call fails and which generates `Demo.oid`. -/
def Demo.drv : Driver := Driver.healthy (fun _ => Demo.oid)

/-- The product service over the repository, with the clock reading `now`. -/
def Demo.service (drv : Driver) (now : Time) : IProductService (List Doc) :=
  NewProductService (fun _ => now) (NewProductRepository drv)

/-- A store holding one product, with identifier `Demo.oid`. -/
def Demo.store : List Doc := [⟨Demo.oid, "pen", 3, 7, 1, 1⟩]

/-- A service over a call counter: every operation adds one to the state. -/
def Demo.counting : IProductService Nat where
  GetAllProduct := fun n => (.done [], n + 1)
  CreateProduct := fun p n => (.ok p, n + 1)
  GetProductByID := fun _ n => (.error "could not find product: none", n + 1)
  UpdateProduct := fun _ p n => (.ok p, n + 1)
  DeleteProduct := fun _ n => (none, n + 1)

/-- A claims validator: admin is the claim `role` equal to `admin`. -/
def Demo.cv : IClaimsValidator := ⟨fun c => decide (c.get "role" = .str "admin")⟩

/-- Decoded form of an HMAC-signed admin token that verifies under the key `secret`. -/
def Demo.adminRaw : RawToken :=
  ⟨.HMAC, [("email", .str "root@shop.test"), ("role", .str "admin")], true,
    fun k => decide (k = "secret")⟩

/-- Decoded form of an RSA-signed token. -/
def Demo.rsaRaw : RawToken :=
  ⟨.RSA, [("email", .str "root@shop.test"), ("role", .str "admin")], true, fun _ => false⟩

/-- A JWT library that decodes the two token strings `admin-token` and `rsa-token`. -/
def Demo.jwt : JWTLib :=
  ⟨fun s => if s = "admin-token" then some Demo.adminRaw
    else if s = "rsa-token" then some Demo.rsaRaw else none⟩

/-- A downstream handler over a call counter: answers 200 and adds one to the state. -/
def Demo.probe : Handler Nat := fun w _ n => (.done (w.WriteHeader 200), n + 1)

/-- A request with the given `Authorization` header and body, in the empty context. -/
def Demo.request (authorization : String) (body : Body) : Request :=
  ⟨"POST", authorization, body, Context.Background⟩

/-- The document of the mutation `deleteProduct(id: "0102030405060708090a0b0c")`. -/
def Demo.deleteQuery : String :=
  "mutation \x7b deleteProduct(id: \"0102030405060708090a0b0c\") \x7d"

/-- The document of the query `products` selecting `id` and `name`. -/
def Demo.productsQuery : String := "\x7b products \x7b id name \x7d \x7d"

/-- A GraphQL library that parses the two documents above. -/
def Demo.gql : GraphQLLib :=
  ⟨fun q =>
    if q = Demo.deleteQuery then
      .ok ⟨.mutation,
        [⟨"deleteProduct", "deleteProduct", [("id", .str "0102030405060708090a0b0c")]⟩]⟩
    else if q = Demo.productsQuery then .ok ⟨.query, [⟨"products", "products", []⟩]⟩
    else .error ("Syntax Error GraphQL request", [])⟩

/-- The request of the scenario: a verified admin token and the `deleteProduct`
mutation against the identifier of the stored product. -/
def Demo.deleteRequest : Request :=
  Demo.request "Bearer admin-token" (.object [("query", .str Demo.deleteQuery)])

/-! ## Authorization of the mutations (C1) -/

/-- C1: for every handler (every service and claims validator), every request context
that carries claims under `claims` which `IsAdmin` rejects, every argument set and every
store state, the `updateProduct` and `deleteProduct` resolvers return the error
`you cannot access this resource` with the store state untouched, whatever the service
would do if called. -/
theorem C1_non_admin_mutations_rejected {σ : Type} (h : ProductHandler σ) (rCtx : Context)
    (claims : MapClaims) (hclaims : rCtx.Value "claims" = CtxVal.mapClaims claims)
    (hadmin : h.cv.IsAdmin claims = false) (p : ResolveParams) (st : σ) :
    h.updateProduct rCtx p st =
      (Resolved.ret GoVal.nil (some "you cannot access this resource"), st) ∧
    h.deleteProduct rCtx p st =
      (Resolved.ret GoVal.nil (some "you cannot access this resource"), st) := by
  constructor
  · simp [ProductHandler.updateProduct, hclaims, CtxVal.assertMapClaims, hadmin]
  · simp [ProductHandler.deleteProduct, hclaims, CtxVal.assertMapClaims, hadmin]

/-- Witness of C1: with the call-counting service and a `user` role, both resolvers
return the error and the counter stays at 0. -/
theorem C1_non_admin_mutations_rejected_witness :
    ProductHandler.updateProduct ⟨Demo.counting, Demo.cv⟩
        [("claims", CtxVal.mapClaims [("role", JVal.str "user")])]
        ⟨[("id", .str "0102030405060708090a0b0c"), ("name", .str "X"), ("price", .float 3),
          ("stock", .int 7)], Context.Background⟩ 0 =
      (Resolved.ret GoVal.nil (some "you cannot access this resource"), 0) ∧
    ProductHandler.deleteProduct ⟨Demo.counting, Demo.cv⟩
        [("claims", CtxVal.mapClaims [("role", JVal.str "user")])]
        ⟨[("id", .str "0102030405060708090a0b0c"), ("name", .str "X"), ("price", .float 3),
          ("stock", .int 7)], Context.Background⟩ 0 =
      (Resolved.ret GoVal.nil (some "you cannot access this resource"), 0) :=
  C1_non_admin_mutations_rejected ⟨Demo.counting, Demo.cv⟩
    [("claims", CtxVal.mapClaims [("role", JVal.str "user")])]
    [("role", JVal.str "user")] rfl (by decide) _ 0

/-! ## The authentication gate (C7, C2) -/

/-- C7: for every request, writer, store state and secret key: with an empty
`Authorization` header the gate answers 401 `Missing Authorization Header`; with a header
whose token is not Verified (it does not decode, is not HMAC-signed, has invalid claims
or a bad signature) it answers 401 `Invalid or expired token`; in both cases the answer
and the store state are the same for every downstream handler, which is thus not run.
In the Verified state the gate runs the downstream handler on the forwarded request. -/
theorem C7_gate_rejects_unless_verified {σ : Type} (SecretKey : String) (lib : JWTLib)
    (w : ResponseWriter) (r : Request) (st : σ) :
    (r.Authorization = "" → ∀ next : Handler σ,
      getJWTMiddleWare SecretKey lib next w r st =
        (Outcome.done (httpError w "Missing Authorization Header" 401), st)) ∧
    (r.Authorization ≠ "" → ¬ Verified SecretKey lib r → ∀ next : Handler σ,
      getJWTMiddleWare SecretKey lib next w r st =
        (Outcome.done (httpError w "Invalid or expired token" 401), st)) ∧
    (Verified SecretKey lib r → ∃ claims : MapClaims, ∀ next : Handler σ,
      getJWTMiddleWare SecretKey lib next w r st = next w (forwarded r claims) st) := by
  refine ⟨?_, ?_, ?_⟩
  · intro h next
    simp [getJWTMiddleWare, h]
  · intro h hv next
    unfold Verified at hv
    simp only [getJWTMiddleWare, h, if_false, jwtParse, getJWTMiddleWare.keyFunc]
    cases hp : lib.ParseUnverified (TrimPrefix r.Authorization "Bearer ") with
    | none => simp
    | some raw =>
      by_cases hm : raw.Method = SigningMethod.HMAC
      · by_cases hc : raw.claimsValid = true
        · by_cases hs : raw.verifies SecretKey = true
          · exact absurd ⟨h, raw, hp, hm, hc, hs⟩ hv
          · simp [hm, hc, hs]
        · simp [hm, hc]
      · simp [hm]
  · rintro ⟨h, raw, hp, hm, hc, hs⟩
    refine ⟨raw.Claims, ?_⟩
    intro next
    simp [getJWTMiddleWare, h, jwtParse, getJWTMiddleWare.keyFunc, hp, hm, hc, hs, forwarded]

/-- Witness of C7: without a header and with an RSA-signed token the counting
downstream handler is not run (the counter stays at 0) and the answer is 401; with the
verified admin token the downstream handler is run on the forwarded request. -/
theorem C7_gate_rejects_unless_verified_witness :
    getJWTMiddleWare "secret" Demo.jwt Demo.probe ResponseWriter.fresh
        (Demo.request "" .null) 0 =
      (Outcome.done (httpError ResponseWriter.fresh "Missing Authorization Header" 401), 0) ∧
    getJWTMiddleWare "secret" Demo.jwt Demo.probe ResponseWriter.fresh
        (Demo.request "Bearer rsa-token" .null) 0 =
      (Outcome.done (httpError ResponseWriter.fresh "Invalid or expired token" 401), 0) ∧
    (∃ claims : MapClaims, ∀ next : Handler Nat,
      getJWTMiddleWare "secret" Demo.jwt next ResponseWriter.fresh
          (Demo.request "Bearer admin-token" .null) 0 =
        next ResponseWriter.fresh
          (forwarded (Demo.request "Bearer admin-token" .null) claims) 0) :=
  ⟨(C7_gate_rejects_unless_verified "secret" Demo.jwt ResponseWriter.fresh
      (Demo.request "" .null) 0).1 rfl Demo.probe,
   (C7_gate_rejects_unless_verified "secret" Demo.jwt ResponseWriter.fresh
      (Demo.request "Bearer rsa-token" .null) 0).2.1 (by decide)
      (by
        rintro ⟨_, raw, hp, hm, _, _⟩
        have hraw : Demo.jwt.ParseUnverified
            (TrimPrefix (Demo.request "Bearer rsa-token" .null).Authorization "Bearer ") =
            some Demo.rsaRaw := rfl
        rw [hraw] at hp
        cases hp
        exact absurd hm (by decide))
      Demo.probe,
   (C7_gate_rejects_unless_verified "secret" Demo.jwt ResponseWriter.fresh
      (Demo.request "Bearer admin-token" .null) 0).2.2
      ⟨by decide, Demo.adminRaw, rfl, rfl, rfl, rfl⟩⟩

/-- The gate forwards the request context with `userEmail` added: the value under
`claims` is the one of the incoming context. -/
theorem forwarded_claims (r : Request) (claims : MapClaims) :
    (forwarded r claims).Context.Value "claims" = r.Context.Value "claims" := by
  simp [forwarded, Context.WithValue, Context.Value, List.lookup]

/-- Without a claims map under `claims` in the request context, the `deleteProduct`
resolver panics before it reads its arguments or calls the service. -/
theorem deleteProduct_panics_without_claims {σ : Type} (h : ProductHandler σ)
    (rCtx : Context) (hnil : rCtx.Value "claims" = CtxVal.json JVal.null)
    (p : ResolveParams) (st : σ) :
    h.deleteProduct rCtx p st =
      (Resolved.panicked "interface conversion: interface {} is nil, not jwt.MapClaims", st) := by
  simp [ProductHandler.deleteProduct, hnil, CtxVal.assertMapClaims]

/-- C2 fails: for the verified admin request of the scenario, the gate forwards a context
with the e-mail claim under `userEmail` and nothing under `claims`, the key the
`deleteProduct` resolver reads. The resolver panics on the type assertion, the store
delete is not reached (the product is still stored), and the server answers 500 with
the panic text instead of `deleteProduct = true`. -/
theorem C2_gate_context_lacks_claims :
    Demo.cv.IsAdmin Demo.adminRaw.Claims = true ∧
    (∀ next : Handler (List Doc),
      getJWTMiddleWare "secret" Demo.jwt next ResponseWriter.fresh Demo.deleteRequest
          Demo.store =
        next ResponseWriter.fresh (forwarded Demo.deleteRequest Demo.adminRaw.Claims)
          Demo.store) ∧
    (forwarded Demo.deleteRequest Demo.adminRaw.Claims).Context =
      [("userEmail", CtxVal.json (JVal.str "root@shop.test"))] ∧
    (forwarded Demo.deleteRequest Demo.adminRaw.Claims).Context.Value "claims" =
      CtxVal.json JVal.null ∧
    SetupServer "secret" Demo.jwt Demo.gql Demo.drv (fun _ => 9) Demo.cv
        ResponseWriter.fresh Demo.deleteRequest Demo.store =
      (Outcome.done
        ⟨[("X-Content-Type-Options", "nosniff"),
          ("Content-Type", "text/plain; charset=utf-8"),
          ("Access-Control-Allow-Headers", "Content-Type, Authorization"),
          ("Access-Control-Allow-Methods", "GET, POST, PUT, DELETE, OPTIONS"),
          ("Access-Control-Allow-Origin", "*")],
         [500],
         [Payload.text ("Failed to execute GraphQL operation: " ++
            "[interface conversion: interface {} is nil, not jwt.MapClaims]\n")]⟩,
       Demo.store) :=
  ⟨rfl, fun _ => rfl, rfl, rfl, rfl⟩

/-! ## Repository update (C3, C10, C4) -/

/-- The collection after `Update` is the one before, or the one before with the `$set`
applied to the first document carrying the identifier. -/
theorem Update_collection (drv : Driver) (id : String) (product : Product) (coll : List Doc) :
    (ProductRepository.Update drv id product coll).2 = coll ∨
    (ProductRepository.Update drv id product coll).2 =
      applyFirst (ObjectIDFromHex id).1 ⟨product.Name, product.Price, product.Stock⟩ coll := by
  unfold ProductRepository.Update
  cases hs : drv.startSessionErr with
  | some e => simp
  | none =>
    simp only [Session.WithTransaction, ProductRepository.Update.callback,
      Collection.UpdateOne]
    cases hu : drv.updateErr with
    | some e => simp [Session.AbortTransaction, Session.EndSession]
    | none =>
      cases hf : coll.find? (fun d => d._id = (ObjectIDFromHex id).1) with
      | none => simp [Session.AbortTransaction, Session.EndSession]
      | some d =>
        by_cases hd : SetDoc.apply ⟨product.Name, product.Price, product.Stock⟩ d = d
        · simp [hd, Session.AbortTransaction, Session.EndSession]
        · cases hc : drv.commitErr with
          | some e => simp [hd, hc, Session.CommitTransaction, Session.EndSession]
          | none => simp [hd, hc, Session.CommitTransaction, Session.EndSession]

/-- An identifier that matches no document makes the write modify nothing. -/
theorem writeModifiesNothing_of_no_match (drv : Driver) (coll : List Doc) (id : String)
    (product : Product)
    (hno : coll.find? (fun d => d._id = (ObjectIDFromHex id).1) = none) :
    writeModifiesNothing drv coll id product := by
  unfold writeModifiesNothing Collection.UpdateOne
  cases drv.updateErr <;> simp [hno]

/-- A payload identical to the stored document makes the write modify nothing. -/
theorem writeModifiesNothing_of_identical (drv : Driver) (coll : List Doc) (id : String)
    (product : Product) (d : Doc)
    (hd : coll.find? (fun d => d._id = (ObjectIDFromHex id).1) = some d)
    (hn : d.name = product.Name) (hp : d.price = product.Price)
    (hk : d.stock = product.Stock) :
    writeModifiesNothing drv coll id product := by
  have hsame : SetDoc.apply ⟨product.Name, product.Price, product.Stock⟩ d = d := by
    cases d; simp_all [SetDoc.apply]
  unfold writeModifiesNothing Collection.UpdateOne
  cases drv.updateErr <;> simp [hd, hsame]

/-- A failing write makes the write modify nothing. -/
theorem writeModifiesNothing_of_error (drv : Driver) (coll : List Doc) (id : String)
    (product : Product) (e : String) (he : drv.updateErr = some e) :
    writeModifiesNothing drv coll id product := by
  simp [writeModifiesNothing, Collection.UpdateOne, he]

/-- C3: once the session has started, if the underlying write fails or reports zero
modified documents (no document matched, or the matched one already equals the payload),
repository `Update` returns an error whose text starts with `could not update product`,
returns no Product, and leaves the collection as it was. -/
theorem C3_update_fails_when_nothing_modified (drv : Driver) (id : String)
    (product : Product) (coll : List Doc)
    (hsession : drv.startSessionErr = none)
    (hwrite : writeModifiesNothing drv coll id product) :
    ∃ cause : String,
      ProductRepository.Update drv id product coll =
        (Except.error ("could not update product: " ++ cause), coll) := by
  unfold writeModifiesNothing at hwrite
  unfold ProductRepository.Update
  simp only [hsession, Session.WithTransaction, ProductRepository.Update.callback]
  cases hu : Collection.UpdateOne drv coll (ObjectIDFromHex id).1
      ⟨product.Name, product.Price, product.Stock⟩ with
  | error e =>
    exact ⟨"could not update product: " ++ e, by
      simp [fmtV, Session.AbortTransaction, Session.EndSession]⟩
  | ok r =>
    obtain ⟨res, working⟩ := r
    rw [hu] at hwrite
    simp only at hwrite
    exact ⟨"could not update product: <nil>", by
      simp [hwrite, fmtV, Session.AbortTransaction, Session.EndSession]⟩

/-- Witness of C3: a payload identical to the stored document, and an identifier that
matches nothing. -/
theorem C3_update_fails_when_nothing_modified_witness :
    (∃ cause : String,
      ProductRepository.Update (Driver.healthy (fun _ => NilObjectID))
        "000000000000000000000000" ⟨"", "pen", 3, 7, 0, 9⟩ [⟨NilObjectID, "pen", 3, 7, 1, 1⟩] =
        (Except.error ("could not update product: " ++ cause),
          [⟨NilObjectID, "pen", 3, 7, 1, 1⟩])) ∧
    (∃ cause : String,
      ProductRepository.Update (Driver.healthy (fun _ => NilObjectID))
        "not-an-id" ⟨"", "ink", 3, 7, 0, 9⟩ [] =
        (Except.error ("could not update product: " ++ cause), [])) :=
  ⟨C3_update_fails_when_nothing_modified _ _ _ _ rfl
      (writeModifiesNothing_of_identical _ _ _ _ ⟨NilObjectID, "pen", 3, 7, 1, 1⟩
        (by decide) rfl rfl rfl),
   C3_update_fails_when_nothing_modified _ _ _ _ rfl
      (writeModifiesNothing_of_no_match _ _ _ _ rfl)⟩

/-- Every document is related to itself. -/
theorem setOnly_refl (oid : ObjectID) (u : SetDoc) (coll : List Doc) :
    List.Forall₂ (setOnly oid u) coll coll := by
  induction coll with
  | nil => exact List.Forall₂.nil
  | cons d ds ih => exact List.Forall₂.cons (Or.inl rfl) ih

/-- The write on the first matching document relates the collections pointwise. -/
theorem setOnly_applyFirst (oid : ObjectID) (u : SetDoc) (coll : List Doc) :
    List.Forall₂ (setOnly oid u) coll (applyFirst oid u coll) := by
  induction coll with
  | nil => exact List.Forall₂.nil
  | cons d ds ih =>
    unfold applyFirst
    by_cases h : d._id = oid
    · simp only [h, if_true]
      exact List.Forall₂.cons (Or.inr ⟨h, rfl⟩) (setOnly_refl oid u ds)
    · simp only [h, if_false]
      exact List.Forall₂.cons (Or.inl rfl) ih

/-- Pointwise related collections have the same identifiers and timestamps. -/
theorem setOnly_frame (oid : ObjectID) (u : SetDoc) (coll coll' : List Doc)
    (h : List.Forall₂ (setOnly oid u) coll coll') :
    coll'.map Doc._id = coll.map Doc._id ∧
    coll'.map Doc.created_at = coll.map Doc.created_at ∧
    coll'.map Doc.updated_at = coll.map Doc.updated_at ∧
    coll'.filter (fun d => d._id ≠ oid) = coll.filter (fun d => d._id ≠ oid) := by
  induction h with
  | nil => simp
  | cons hd _ ih =>
    obtain ⟨h1, h2, h3, h4⟩ := ih
    simp only [ne_eq, decide_not] at h4
    rcases hd with rfl | ⟨hid, rfl⟩
    · simp [h1, h2, h3, h4, List.filter_cons]
    · simp [h1, h2, h3, h4, hid, List.filter_cons]

/-- C10: for every id and payload, successful or failed, repository `Update` leaves the
collection pointwise as it was except that a document carrying the identifier may have
its name, price and stock replaced by the payload's. So the identifiers and the creation
timestamps (and the update timestamps) are the same before and after, and the documents
with another identifier are unchanged. -/
theorem C10_update_sets_only_name_price_stock (drv : Driver) (id : String)
    (product : Product) (coll : List Doc) :
    List.Forall₂
      (setOnly (ObjectIDFromHex id).1 ⟨product.Name, product.Price, product.Stock⟩)
      coll (ProductRepository.Update drv id product coll).2 ∧
    (ProductRepository.Update drv id product coll).2.map Doc._id = coll.map Doc._id ∧
    (ProductRepository.Update drv id product coll).2.map Doc.created_at =
      coll.map Doc.created_at ∧
    (ProductRepository.Update drv id product coll).2.filter
        (fun d => d._id ≠ (ObjectIDFromHex id).1) =
      coll.filter (fun d => d._id ≠ (ObjectIDFromHex id).1) := by
  have key : List.Forall₂
      (setOnly (ObjectIDFromHex id).1 ⟨product.Name, product.Price, product.Stock⟩)
      coll (ProductRepository.Update drv id product coll).2 := by
    rcases Update_collection drv id product coll with h | h
    · rw [h]; exact setOnly_refl _ _ _
    · rw [h]; exact setOnly_applyFirst _ _ _
  have fr := setOnly_frame _ _ _ _ key
  exact ⟨key, fr.1, fr.2.1, fr.2.2.2⟩

/-- C4 fails on the update timestamp: a product created at time 1 and renamed to `X` at
time 2 is found with name `X` but with update timestamp 1, its creation timestamp; the
timestamp 2 stamped by the service is only on the Product returned by the update. -/
theorem C4_update_timestamp_not_persisted :
    (Demo.service Demo.drv 1).CreateProduct ⟨"", "pen", 3, 7, 0, 0⟩ [] =
      (Except.ok ⟨"0102030405060708090a0b0c", "pen", 3, 7, 1, 1⟩,
        [⟨Demo.oid, "pen", 3, 7, 1, 1⟩]) ∧
    (Demo.service Demo.drv 2).UpdateProduct "0102030405060708090a0b0c"
        ⟨"", "X", 3, 7, 0, 0⟩ [⟨Demo.oid, "pen", 3, 7, 1, 1⟩] =
      (Except.ok ⟨"0102030405060708090a0b0c", "X", 3, 7, 0, 2⟩,
        [⟨Demo.oid, "X", 3, 7, 1, 1⟩]) ∧
    (Demo.service Demo.drv 3).GetProductByID "0102030405060708090a0b0c"
        [⟨Demo.oid, "X", 3, 7, 1, 1⟩] =
      (Except.ok ⟨"0102030405060708090a0b0c", "X", 3, 7, 1, 1⟩,
        [⟨Demo.oid, "X", 3, 7, 1, 1⟩]) :=
  ⟨rfl, rfl, rfl⟩

/-! ## Repository create, delete and get-all (C5, C9, C6) -/

/-- The hex text of an identifier is never the empty string. -/
theorem ObjectID.Hex_ne_empty (o : ObjectID) : o.Hex ≠ "" := by
  obtain ⟨bs, hb⟩ := o
  cases bs with
  | nil => simp at hb
  | cons b bs =>
    intro h
    have hdata := congrArg String.data h
    simp [ObjectID.Hex, hexEncode] at hdata

/-- C5: whenever the insert issued by `CreateProduct` succeeds, `CreateProduct` returns a
Product whose identifier is the hex text of the inserted identifier and is not empty,
whose creation and update timestamps both equal the clock reading, and whose name, price
and stock are the input's. -/
theorem C5_create_returns_identified_stamped_product (drv : Driver) (TimeNow : Unit → Time)
    (input : Product) (coll coll' : List Doc) (insertedID : ObjectID)
    (hinsert : Collection.InsertOne drv coll
        { input with CreatedAt := TimeNow (), UpdatedAt := TimeNow () } =
      Except.ok (insertedID, coll')) :
    ∃ p : Product,
      (NewProductService TimeNow (NewProductRepository drv)).CreateProduct input coll =
        (Except.ok p, coll') ∧
      p.ID = insertedID.Hex ∧ p.ID ≠ "" ∧
      p.CreatedAt = TimeNow () ∧ p.UpdatedAt = TimeNow () ∧ p.CreatedAt = p.UpdatedAt ∧
      p.Name = input.Name ∧ p.Price = input.Price ∧ p.Stock = input.Stock := by
  refine ⟨⟨insertedID.Hex, input.Name, input.Price, input.Stock, TimeNow (), TimeNow ()⟩,
    ?_, rfl, ObjectID.Hex_ne_empty _, rfl, rfl, rfl, rfl, rfl, rfl⟩
  simp only [NewProductService, NewProductRepository, ProductService.CreateProduct,
    ProductRepository.Create]
  rw [hinsert]

/-- Witness of C5: a product created at time 5 in the empty collection. -/
theorem C5_create_returns_identified_stamped_product_witness :
    ∃ p : Product,
      (NewProductService (fun _ => 5) (NewProductRepository Demo.drv)).CreateProduct
          ⟨"", "pen", 3, 7, 0, 0⟩ [] =
        (Except.ok p, [⟨Demo.oid, "pen", 3, 7, 5, 5⟩]) ∧
      p.ID = Demo.oid.Hex ∧ p.ID ≠ "" ∧
      p.CreatedAt = 5 ∧ p.UpdatedAt = 5 ∧ p.CreatedAt = p.UpdatedAt ∧
      p.Name = "pen" ∧ p.Price = 3 ∧ p.Stock = 7 :=
  C5_create_returns_identified_stamped_product Demo.drv (fun _ => 5)
    ⟨"", "pen", 3, 7, 0, 0⟩ [] [⟨Demo.oid, "pen", 3, 7, 5, 5⟩] Demo.oid rfl

/-- C9: repository `Delete` returns an error exactly when the underlying remove errors,
and then leaves the collection as it was; `DeleteProduct` is `Delete`; a malformed id is
looked up as the zero identifier; and when the remove does not error and no document
carries the looked-up identifier, `Delete` returns no error and leaves the collection
unchanged. -/
theorem C9_delete_errors_iff_remove_errors (drv : Driver) (TimeNow : Unit → Time)
    (id : String) (coll : List Doc) :
    ((ProductRepository.Delete drv id coll).1 ≠ none ↔
      ∃ e, Collection.DeleteOne drv coll (ObjectIDFromHex id).1 = Except.error e) ∧
    ((ProductRepository.Delete drv id coll).1 ≠ none →
      (ProductRepository.Delete drv id coll).2 = coll) ∧
    (NewProductService TimeNow (NewProductRepository drv)).DeleteProduct id coll =
      ProductRepository.Delete drv id coll ∧
    ((ObjectIDFromHex id).2 ≠ none → (ObjectIDFromHex id).1 = NilObjectID) ∧
    (drv.deleteErr = none → (∀ d ∈ coll, d._id ≠ (ObjectIDFromHex id).1) →
      ProductRepository.Delete drv id coll = (none, coll)) := by
  refine ⟨?_, ?_, rfl, ?_, ?_⟩
  · unfold ProductRepository.Delete Collection.DeleteOne
    cases drv.deleteErr <;> simp
  · unfold ProductRepository.Delete Collection.DeleteOne
    cases drv.deleteErr <;> simp
  · unfold ObjectIDFromHex
    split
    · simp
    · split
      · simp
      · split <;> simp
  · intro hd hno
    unfold ProductRepository.Delete Collection.DeleteOne
    simp only [hd]
    congr 1
    apply List.eraseP_of_forall_not
    intro d hmem
    simpa using hno d hmem

/-- Witness of C9: a malformed id against a collection holding one product is looked up
as the zero identifier, matches nothing, and deletes nothing. -/
theorem C9_delete_errors_iff_remove_errors_witness :
    (ObjectIDFromHex "not-an-id").1 = NilObjectID ∧
    ProductRepository.Delete Demo.drv "not-an-id" [⟨Demo.oid, "pen", 3, 7, 5, 5⟩] =
      (none, [⟨Demo.oid, "pen", 3, 7, 5, 5⟩]) :=
  ⟨(C9_delete_errors_iff_remove_errors Demo.drv (fun _ => 0) "not-an-id"
      [⟨Demo.oid, "pen", 3, 7, 5, 5⟩]).2.2.2.1 (by decide),
   (C9_delete_errors_iff_remove_errors Demo.drv (fun _ => 0) "not-an-id"
      [⟨Demo.oid, "pen", 3, 7, 5, 5⟩]).2.2.2.2 rfl (by decide)⟩

/-- Whenever the find fails, `Getall` calls `All` on the nil cursor and panics. -/
theorem Getall_panics_of_find_error (drv : Driver) (coll : List Doc) (e : String)
    (he : drv.findErr = some e) :
    ProductRepository.Getall drv coll = (Outcome.panic nilDeref, coll) := by
  simp [ProductRepository.Getall, Collection.Find, Cursor.All, he]

/-- C6 fails on a failing find: with `Find` returning an error and no cursor, repository
`Getall` panics on the nil cursor instead of returning an empty sequence, and so does
the `products` resolver. -/
theorem C6_getall_panics_when_find_fails :
    ProductRepository.Getall { Demo.drv with findErr := some "server selection error" } [] =
      (Outcome.panic nilDeref, []) ∧
    ProductHandler.products
        ⟨Demo.service { Demo.drv with findErr := some "server selection error" } 5,
          ⟨fun _ => false⟩⟩
        ⟨[], Context.Background⟩ [] =
      (Resolved.panicked nilDeref, []) :=
  ⟨rfl, rfl⟩

/-! ## The response of `ServeGraphQL` (C8) -/

end ProductSvc
